import Mathlib

/-!
Shallow embedding of the disk-writer module (src/uv_file.c) and of the
public helpers (raft_leader) of the raft repository, together with a
spec-modelled fragment of the membership-change engine.

Modelling conventions:
* C assertions are modelled as guards: an operation whose assertion would
  fire is unavailable (the step function returns none), matching the fact
  that the C code aborts rather than returning an error on such calls.
* The libuv reactor callbacks (createAfterWorkCb, writeAfterWorkCb,
  writePollCb, pollCloseCb) are modelled as events of a step function on
  the uvFile handle state; uv_close followed by pollCloseCb is collapsed
  into a single atomic transition guarded by uv_is_closing (state cannot
  already be closed), which preserves all ordering facts the development
  states, because nothing can be enqueued once closing is set.
* Compile-time feature tests (RWF_NOWAIT, RWF_DSYNC, RWF_HIPRI) become a
  Caps record of booleans.
* The step machine models builds with RWF_NOWAIT available, the case in
  which the eventfd poll path exists at all; the pure submission and poll
  functions take the capability explicitly.
* errno values and uv error codes are Int with their Linux values.
-/

namespace RaftImpl

/-- Linux errno EAGAIN. -/
def EAGAIN : Int := 11

/-- Linux errno EOPNOTSUPP. -/
def EOPNOTSUPP : Int := 95

/-- Linux errno EIO. -/
def EIO : Int := 5

/-- libuv UV_ECANCELED (negated Linux ECANCELED). -/
def UV_ECANCELED : Int := -125

/-- Embeds uv_translate_sys_error from src/uv_file.c lines 17-20:
non-positive values pass through, positive errno values are negated. -/
def uv_translate_sys_error (e : Int) : Int :=
  if e ≤ 0 then e else -e

/-- The uvFile state codes (src/uv_file.c line 24), plus the value 0 the
state field holds before uvFileCreate runs. -/
inductive FState
  | idle
  | creating
  | ready
  | errored
  | closed
deriving DecidableEq, Repr

/-- The uvFile handle fields the control flow of src/uv_file.c depends on:
the state code, the closing flag, the n_events bound (max concurrent
writes) and the intrusive write queue, modelled as the list of in-flight
write request identifiers in submission order. -/
structure UvFile where
  state : FState
  closing : Bool
  n_events : Nat
  write_queue : List Nat
deriving DecidableEq, Repr

/-- Handle as left by uvFileInit: no state code assigned yet, not closing,
empty write queue. -/
def uvFileInitModel : UvFile := ⟨FState.idle, false, 0, []⟩

/-- Callback invocations observable by the caller. -/
inductive Out
  | createCb (status : Int)
  | writeCb (id : Nat) (status : Int)
  | closeCb
deriving DecidableEq, Repr

/-- Reactor events driving the handle: uvFileCreate, createAfterWorkCb
(with the status computed by createWorkCb), uvFileWrite, writeAfterWorkCb
(threadpool completion with the result of writeWorkCb), one completion
delivered by writePollCb (with the io_event result), and uvFileClose. -/
inductive Ev
  | create (max_n_writes : Nat)
  | createDone (status : Int)
  | write (id : Nat)
  | writeDoneWork (id : Nat) (res : Int)
  | writeDonePoll (id : Nat) (res : Int)
  | close
deriving DecidableEq, Repr

/-- Embeds maybeClosed + uv_close + pollCloseCb (src/uv_file.c lines
153-200): when closing is set, no create is in flight, the poller is not
already closing and the write queue is empty, the poller is closed and the
close callback fires. -/
def maybeClosed (f : UvFile) : UvFile × List Out :=
  if f.closing = true ∧ f.state ≠ FState.creating ∧ f.state ≠ FState.closed ∧
     f.write_queue = [] then
    ({ f with state := FState.closed }, [Out.closeCb])
  else
    (f, [])

/-- Embeds writeFinish followed by maybeClosed: the request leaves the
queue, its callback fires with the given status, then the closing sequence
may complete. -/
def writeFinishStep (f : UvFile) (id : Nat) (status : Int) : UvFile × List Out :=
  ((maybeClosed { f with write_queue := f.write_queue.erase id }).1,
   Out.writeCb id status ::
     (maybeClosed { f with write_queue := f.write_queue.erase id }).2)

/-- One reactor transition of the uvFile handle, following src/uv_file.c:
* create: uvFileCreate asserts the handle is not closing (line 417); it
  records n_events and moves to CREATING (lines 420, 429);
* createDone: createAfterWorkCb (lines 313-357) forces UV_ECANCELED when
  closing, latches READY on status 0 and ERRORED otherwise, invokes the
  create callback and runs maybeClosed;
* write: uvFileWrite asserts not closing and state READY (lines 494-495),
  asserts an empty queue when n_events is 1 (lines 500-502), and pushes
  the request on the write queue (line 522);
* writeDoneWork: writeAfterWorkCb (lines 204-224) asserts READY, forces
  UV_ECANCELED when closing, finishes the request and runs maybeClosed;
* writeDonePoll: one io_event handled by writePollCb (lines 268-303):
  when closing the request finishes with UV_ECANCELED; otherwise a result
  of -EAGAIN resubmits the request to the threadpool (it stays in flight,
  no callback); otherwise the request finishes with the event result;
* close: uvFileClose (lines 604-618) asserts not closing, sets the flag
  and runs maybeClosed. -/
def stepF (f : UvFile) : Ev → Option (UvFile × List Out)
  | Ev.create n =>
    if f.closing = false ∧ f.state = FState.idle ∧ 0 < n then
      some ({ f with state := FState.creating, n_events := n }, [])
    else none
  | Ev.createDone status =>
    if f.state = FState.creating then
      some (((maybeClosed { f with state :=
          if (if f.closing then UV_ECANCELED else status) = 0 then FState.ready
          else FState.errored }).1),
        Out.createCb (if f.closing then UV_ECANCELED else status) ::
          (maybeClosed { f with state :=
            if (if f.closing then UV_ECANCELED else status) = 0 then FState.ready
            else FState.errored }).2)
    else none
  | Ev.write id =>
    if f.closing = false ∧ f.state = FState.ready ∧
       (f.n_events = 1 → f.write_queue = []) ∧ id ∉ f.write_queue then
      some ({ f with write_queue := f.write_queue ++ [id] }, [])
    else none
  | Ev.writeDoneWork id res =>
    if f.state = FState.ready ∧ id ∈ f.write_queue then
      some (writeFinishStep f id (if f.closing then UV_ECANCELED else res))
    else none
  | Ev.writeDonePoll id res =>
    if f.state = FState.ready ∧ id ∈ f.write_queue then
      if f.closing = true then
        some (writeFinishStep f id UV_ECANCELED)
      else if res = -EAGAIN then
        some (f, [])
      else
        some (writeFinishStep f id res)
    else none
  | Ev.close =>
    if f.closing = false then
      some (maybeClosed { f with closing := true })
    else none

/-- Runs a list of reactor events from a handle state, accumulating the
callback invocations in order; none if some event is unavailable. -/
def runEvents (f : UvFile) : List Ev → Option (UvFile × List Out)
  | [] => some (f, [])
  | e :: es =>
    match stepF f e with
    | none => none
    | some (f1, out1) =>
      match runEvents f1 es with
      | none => none
      | some (f2, out2) => some (f2, out1 ++ out2)

/-- The kernel I/O capabilities the C file tests at compile time
(RWF_HIPRI, RWF_DSYNC, RWF_NOWAIT). -/
structure Caps where
  rwf_hipri : Bool
  rwf_dsync : Bool
  rwf_nowait : Bool
deriving DecidableEq, Repr

/-- The iocb fields src/uv_file.c manipulates on a write request. -/
structure Iocb where
  aio_fildes : Int
  flag_resfd : Bool
  aio_resfd : Int
  rwf_hipri : Bool
  rwf_dsync : Bool
  rwf_nowait : Bool
  aio_nbytes : Nat
  aio_offset : Nat
deriving DecidableEq, Repr

/-- Embeds the iocb setup of uvFileWrite (src/uv_file.c lines 513-547):
the iocb is zeroed then filled; RWF_HIPRI and RWF_DSYNC are set whenever
available; when RWF_NOWAIT is available and the handle is async, the
eventfd completion flag, the eventfd and RWF_NOWAIT are set. -/
def mkWriteIocb (caps : Caps) (async : Bool) (fd event_fd : Int)
    (n : Nat) (offset : Nat) : Iocb :=
  { aio_fildes := fd
    flag_resfd := caps.rwf_nowait && async
    aio_resfd := if caps.rwf_nowait && async then event_fd else 0
    rwf_hipri := caps.rwf_hipri
    rwf_dsync := caps.rwf_dsync
    rwf_nowait := caps.rwf_nowait && async
    aio_nbytes := n
    aio_offset := offset }

/-- Embeds the flag clearing done before falling back to the threadpool
(src/uv_file.c lines 283-285 and 578-580): the eventfd completion flag,
the eventfd and RWF_NOWAIT are removed. -/
def clearNowaitFlags (i : Iocb) : Iocb :=
  { i with flag_resfd := false, aio_resfd := 0, rwf_nowait := false }

/-- Outcome of the io_submit system call attempted by uvFileWrite. -/
inductive IoSubmitOutcome
  | ok
  | err (errno : Int)
deriving DecidableEq, Repr

/-- How uvFileWrite disposes of a write request. -/
inductive SubmitResult
  | submittedAio (i : Iocb)
  | queuedToWorker (i : Iocb)
  | failed (rv : Int)
  | assertFailed
deriving DecidableEq, Repr

/-- Embeds the submission logic of uvFileWrite (src/uv_file.c lines
535-596) given the iocb built by mkWriteIocb: with RWF_NOWAIT available
and an async handle the request is submitted with io_submit; on success
it is in flight on the AIO path; errno EOPNOTSUPP trips assert(0) (line
566); errno EAGAIN clears the non-blocking flags and queues the request
to the threadpool; any other errno fails the call. Without RWF_NOWAIT
an async handle trips assert(f->async == false) (line 546); otherwise
the request goes to the threadpool with its flags untouched. -/
def uvFileWriteSubmit (caps : Caps) (async : Bool) (i : Iocb)
    (outcome : IoSubmitOutcome) : SubmitResult :=
  if caps.rwf_nowait then
    if async then
      match outcome with
      | IoSubmitOutcome.ok => SubmitResult.submittedAio i
      | IoSubmitOutcome.err e =>
        if e = EOPNOTSUPP then SubmitResult.assertFailed
        else if e = EAGAIN then SubmitResult.queuedToWorker (clearNowaitFlags i)
        else SubmitResult.failed (uv_translate_sys_error e)
    else SubmitResult.queuedToWorker i
  else
    if async then SubmitResult.assertFailed
    else SubmitResult.queuedToWorker i

/-- What writePollCb does with one fetched io_event. -/
inductive PollOut
  | finished (id : Nat) (status : Int)
  | requeuedToWorker (id : Nat) (i : Iocb)
deriving DecidableEq, Repr

/-- Embeds the per-event loop of writePollCb (src/uv_file.c lines
268-303) over the list of fetched io_events (request id, its iocb, the
event result): when closing, the request finishes with UV_ECANCELED;
otherwise, with RWF_NOWAIT available, a result of -EAGAIN clears the
non-blocking flags, requeues the request to the threadpool and RETURNS
from the callback, leaving the remaining fetched events unprocessed
(the early return at line 295); otherwise the request finishes with the
event result. -/
def pollEvents (nowaitCap closing : Bool) :
    List (Nat × Iocb × Int) → List PollOut
  | [] => []
  | (id, i, res) :: rest =>
    if closing = true then
      PollOut.finished id UV_ECANCELED :: pollEvents nowaitCap closing rest
    else if nowaitCap = true ∧ res = -EAGAIN then
      [PollOut.requeuedToWorker id (clearNowaitFlags i)]
    else
      PollOut.finished id res :: pollEvents nowaitCap closing rest

/-- Embeds writePollCb (src/uv_file.c lines 228-308): the eventfd is
read; a short read returns without processing (lines 246-253); the value
read is otherwise ignored (the commented-out assertion at line 256);
io_getevents then fetches at least 1 and at most n_events ready events
in a single call, and each fetched event is handled by pollEvents. -/
def writePollCbModel (nowaitCap closing : Bool) (n_events : Nat)
    (eventfdRead : Option Nat) (ready : List (Nat × Iocb × Int)) :
    List PollOut :=
  match eventfdRead with
  | none => []
  | some _ => pollEvents nowaitCap closing (ready.take n_events)

/-- The blocking system calls createWorkCb performs, in order. -/
inductive Syscall
  | fallocate
  | fsyncFile
  | syncDir
  | setDirectIO
deriving DecidableEq, Repr

/-- The outcomes the environment gives each system call createWorkCb may
perform: posix_fallocate returns 0 or an error number; fsync returns -1
with errno on failure; osSyncDir and osSetDirectIO return 0 or an error
value. -/
structure CreateEnv where
  fallocate_rv : Int
  fsync_ok : Bool
  fsync_errno : Int
  sync_dir_rv : Int
  set_direct_rv : Int
deriving DecidableEq, Repr

/-- Embeds createWorkCb (src/uv_file.c lines 27-77): posix_fallocate to
the requested size, then fsync of the file, then fsync of the containing
directory, then O_DIRECT setup when requested; the first failure stops
the sequence and becomes the request status; on success the status is 0.
Returns the status and the trace of system calls performed, in order. -/
def createWorkCbModel (direct : Bool) (env : CreateEnv) : Int × List Syscall :=
  if env.fallocate_rv ≠ 0 then
    (uv_translate_sys_error env.fallocate_rv, [Syscall.fallocate])
  else if env.fsync_ok = false then
    (uv_translate_sys_error env.fsync_errno,
     [Syscall.fallocate, Syscall.fsyncFile])
  else if env.sync_dir_rv ≠ 0 then
    (uv_translate_sys_error env.sync_dir_rv,
     [Syscall.fallocate, Syscall.fsyncFile, Syscall.syncDir])
  else if direct then
    if env.set_direct_rv ≠ 0 then
      (uv_translate_sys_error env.set_direct_rv,
       [Syscall.fallocate, Syscall.fsyncFile, Syscall.syncDir,
        Syscall.setDirectIO])
    else
      (0, [Syscall.fallocate, Syscall.fsyncFile, Syscall.syncDir,
           Syscall.setDirectIO])
  else
    (0, [Syscall.fallocate, Syscall.fsyncFile, Syscall.syncDir])

/-- The open(2) flag bits uvFileCreate chooses (src/uv_file.c lines
412-426). -/
structure OpenFlags where
  o_wronly : Bool
  o_creat : Bool
  o_excl : Bool
  o_dsync : Bool
deriving DecidableEq, Repr

/-- Embeds the flag computation of uvFileCreate: O_WRONLY, O_CREAT and
O_EXCL always; O_DSYNC exactly when per-request RWF_DSYNC is not
available (src/uv_file.c lines 422-426). -/
def createOpenFlags (caps : Caps) : OpenFlags :=
  { o_wronly := true, o_creat := true, o_excl := true,
    o_dsync := !caps.rwf_dsync }

/-- Modelled from the spec: the buffer-allocation helpers and the callers
of uvFileWrite live outside src/; per spec section 4.2, when direct I/O is
enabled every submission uses buffers aligned to the probed block size.
This gives the alignment, in bytes, that the modelled writer guarantees
for a submission buffer. -/
def specSubmissionAlignment (direct : Bool) (blockSize : Nat) : Nat :=
  if direct then blockSize else 1

/-- The raft state codes of the public API (RAFT_UNAVAILABLE,
RAFT_FOLLOWER, RAFT_CANDIDATE, RAFT_LEADER). -/
inductive RaftState
  | unavailable
  | follower
  | candidate
  | leader
deriving DecidableEq, Repr

/-- The raft instance fields raft_leader reads: the state code, the
node's own id and address, and the follower state's record of the current
leader. A NULL address is none. -/
structure RaftNode where
  state : RaftState
  id : Nat
  address : Option String
  current_leader_id : Nat
  current_leader_address : Option String
deriving DecidableEq, Repr

/-- Embeds raft_leader (second source file, lines 630-647): unavailable
and candidate report id 0 and a NULL address; a follower reports the
current leader recorded in its follower state; a leader reports its own
id and address. -/
def raft_leader (r : RaftNode) : Nat × Option String :=
  match r.state with
  | RaftState.unavailable => (0, none)
  | RaftState.candidate => (0, none)
  | RaftState.follower => (r.current_leader_id, r.current_leader_address)
  | RaftState.leader => (r.id, r.address)

/-- Server roles of a configuration (spec section 3). -/
inductive Role
  | voter
  | nonVoter
  | spare
deriving DecidableEq, Repr

/-- A configuration server: nonzero id, address, role (spec section 3). -/
structure Server where
  id : Nat
  address : String
  role : Role
deriving DecidableEq, Repr

/-- Modelled from the spec: the membership-change engine (raft_add and the
configuration module) is not under src/; only the membership test suite
is. Per spec sections 4.4 and 8 (scenario 3), an add-server request
appends a configuration entry that adds the requested server with the
non-voter role, and the configuration that results once that entry is
applied on a server is the previous server list with the new server
appended; server ids must stay unique, so adding an existing id is
refused. -/
def raft_add_apply (cfg : List Server) (id : Nat) (addr : String) :
    Option (List Server) :=
  if id ∈ cfg.map Server.id then none
  else some (cfg ++ [⟨id, addr, Role.nonVoter⟩])

/-- A concrete three-voter configuration used as a witness input. -/
def cfgThreeVoters : List Server :=
  [⟨1, "addr1", Role.voter⟩, ⟨2, "addr2", Role.voter⟩, ⟨3, "addr3", Role.voter⟩]

/-- The server an add-server(id=4) request appends, used as a witness
input. -/
def serverFour : Server := ⟨4, "addr4", Role.nonVoter⟩

/-- A concrete raft node parametrised by its state code, used as a
witness input. -/
def rnodeEx (s : RaftState) : RaftNode := ⟨s, 5, some "a5", 3, some "a3"⟩

/-- A create environment in which every system call succeeds, used as a
witness input. -/
def envAllOk : CreateEnv := ⟨0, true, 5, 0, 0⟩

/-- A handle in the READY state, not closing, one concurrent write, empty
write queue, used as a witness input. -/
def fReady1 : UvFile := ⟨FState.ready, false, 1, []⟩

/-- A handle in the CREATING state, not closing, used as a witness
input. -/
def fCreating1 : UvFile := ⟨FState.creating, false, 1, []⟩

/-- Capabilities with RWF_HIPRI, RWF_DSYNC and RWF_NOWAIT all available,
used as a witness input. -/
def capsAll : Caps := ⟨true, true, true⟩

/-- A handle in the ERRORED state, not closing, used as a witness
input. -/
def fErrored1 : UvFile := ⟨FState.errored, false, 1, []⟩

/-- A READY handle with one in-flight write (id 7), used as a witness
input. -/
def fQueued7 : UvFile := ⟨FState.ready, false, 1, [7]⟩

/-- A READY handle with one in-flight write (id 7) on which uvFileClose
has been requested, used as a witness input. -/
def fClosing7 : UvFile := ⟨FState.ready, true, 1, [7]⟩

/-- A READY closing handle supporting two concurrent writes with two in
flight (ids 7 and 8), used as a witness input. -/
def fClosing2 : UvFile := ⟨FState.ready, true, 2, [7, 8]⟩

/-- The closed handle reached once a closing handle drains, used as a
witness input. -/
def fClosedT : UvFile := ⟨FState.closed, true, 1, []⟩

/-- The event trace refuting C1: creation succeeds, a write completes
with an I/O error (-EIO), then another write is submitted. -/
def traceWriteErrorThenWrite : List Ev :=
  [Ev.create 1, Ev.createDone 0, Ev.write 7, Ev.writeDonePoll 7 (- EIO),
   Ev.write 8]

/-- The event trace refuting C7: a file allowing two concurrent writes,
two writes submitted, the kernel completing (and writePollCb fetching)
the second one first. -/
def traceTwoWritesOutOfOrder : List Ev :=
  [Ev.create 2, Ev.createDone 0, Ev.write 1, Ev.write 2,
   Ev.writeDonePoll 2 0, Ev.writeDonePoll 1 0]

/-- A concrete async-submission iocb built with all capabilities, used
in counterexamples and witnesses. -/
def iocbAsyncEx : Iocb := mkWriteIocb capsAll true 3 4 1 0

/-- A concrete threadpool-path iocb (no non-blocking flags), used in
counterexamples and witnesses. -/
def iocbPlainEx : Iocb := mkWriteIocb capsAll false 3 4 1 0

/-- The sequential-writer invariant behind the amended C7: at most one
concurrent write is configured, the handle has been created, and at most
one write is in flight. -/
def seqWriter (f : UvFile) : Prop :=
  f.n_events = 1 ∧ f.state ≠ FState.idle ∧ f.write_queue.length ≤ 1

section Helpers

theorem maybeClosed_fst_queue (f : UvFile) :
    (maybeClosed f).1.write_queue = f.write_queue := by
  unfold maybeClosed
  split <;> rfl

theorem maybeClosed_fst_closing (f : UvFile) :
    (maybeClosed f).1.closing = f.closing := by
  unfold maybeClosed
  split <;> rfl

theorem maybeClosed_not_closing (f : UvFile) (h : f.closing = false) :
    maybeClosed f = (f, []) := by
  unfold maybeClosed
  rw [if_neg]
  intro hc
  rw [h] at hc
  exact Bool.false_ne_true hc.1

theorem maybeClosed_state_ready (f : UvFile)
    (h : (maybeClosed f).1.state = FState.ready) : f.state = FState.ready := by
  unfold maybeClosed at h
  split at h
  · simp at h
  · exact h

theorem closeCb_mem_maybeClosed (f : UvFile)
    (h : Out.closeCb ∈ (maybeClosed f).2) :
    f.write_queue = [] ∧ (maybeClosed f).1.state = FState.closed ∧
      f.closing = true := by
  unfold maybeClosed at h ⊢
  split at h
  · rename_i hg
    rw [if_pos hg]
    exact ⟨hg.2.2.2, rfl, hg.1⟩
  · simp at h

end Helpers

/-- C10: raft_leader returns the node's own id and address in the leader
state, the currently known leader's id and address in the follower state,
and id 0 with a NULL address in the candidate or unavailable state; it
never reports a leader while candidate or unavailable. -/
theorem C10_raft_leader (r : RaftNode) :
    (r.state = RaftState.leader → raft_leader r = (r.id, r.address)) ∧
    (r.state = RaftState.follower →
      raft_leader r = (r.current_leader_id, r.current_leader_address)) ∧
    ((r.state = RaftState.candidate ∨ r.state = RaftState.unavailable) →
      raft_leader r = (0, none)) := by
  refine ⟨?_, ?_, ?_⟩ <;> intro h
  · cases hs : r.state <;> simp [hs] at h ⊢ <;> simp [raft_leader, hs]
  · cases hs : r.state <;> simp [hs] at h ⊢ <;> simp [raft_leader, hs]
  · cases hs : r.state <;> simp [hs] at h ⊢ <;> simp [raft_leader, hs]

theorem C10_raft_leader_witness :
    raft_leader (rnodeEx RaftState.leader) = (5, some "a5") ∧
    raft_leader (rnodeEx RaftState.follower) = (3, some "a3") ∧
    raft_leader (rnodeEx RaftState.candidate) = (0, none) ∧
    raft_leader (rnodeEx RaftState.unavailable) = (0, none) :=
  ⟨(C10_raft_leader _).1 rfl,
   (C10_raft_leader _).2.1 rfl,
   (C10_raft_leader _).2.2 (Or.inl rfl),
   (C10_raft_leader _).2.2 (Or.inr rfl)⟩

/-- C9: in a cluster of N voters, once the configuration entry produced by
an add-server request is applied, the configuration has N+1 servers and
the newly added server, at the last position and carrying the new id, has
the non-voter role. -/
theorem C9_add_nonvoter (cfg : List Server) (id : Nat) (addr : String)
    (cfg' : List Server)
    (hv : ∀ s ∈ cfg, s.role = Role.voter)
    (happ : raft_add_apply cfg id addr = some cfg') :
    cfg'.length = cfg.length + 1 ∧
    cfg'.getLast? = some ⟨id, addr, Role.nonVoter⟩ ∧
    cfg'.getLast?.map Server.role = some Role.nonVoter := by
  unfold raft_add_apply at happ
  split at happ
  · exact absurd happ (by simp)
  · cases happ
    refine ⟨by simp, ?_, ?_⟩
    · simpa using List.getLast?_concat cfg
    · simp [List.getLast?_concat]

theorem C9_add_nonvoter_witness :
    (cfgThreeVoters ++ [serverFour]).length = cfgThreeVoters.length + 1 ∧
    (cfgThreeVoters ++ [serverFour]).getLast? = some serverFour ∧
    (cfgThreeVoters ++ [serverFour]).getLast?.map Server.role =
      some Role.nonVoter :=
  C9_add_nonvoter cfgThreeVoters 4 "addr4" _ (by decide) (by rfl)

theorem uv_translate_ne_zero (e : Int) (he : e ≠ 0) :
    uv_translate_sys_error e ≠ 0 := by
  unfold uv_translate_sys_error
  split
  · exact he
  · simpa using he

/-- C5: a file created via uvFileCreate is preallocated with
posix_fallocate before any write (writes require the READY state, reached
only when createWorkCb reported status 0), and the preallocation is
followed first by an fsync of the file, then by an fsync of the
containing directory, before the create request is reported successful.
The hypothesis on fsync_errno records the POSIX guarantee that errno is
nonzero after a failed fsync. -/
theorem C5_preallocate_then_sync (direct : Bool) (env : CreateEnv)
    (f : UvFile) (id : Nat) (henv : env.fsync_errno ≠ 0) :
    ((createWorkCbModel direct env).1 = 0 →
      (createWorkCbModel direct env).2 =
        [Syscall.fallocate, Syscall.fsyncFile, Syscall.syncDir] ++
          (if direct then [Syscall.setDirectIO] else [])) ∧
    ((createWorkCbModel direct env).2.head? = some Syscall.fallocate) ∧
    (stepF f (Ev.write id) ≠ none →
      f.state = FState.ready ∧ f.closing = false) ∧
    (∀ st f' out, stepF f (Ev.createDone st) = some (f', out) →
      f'.state = FState.ready → st = 0 ∧ f.closing = false) := by
  refine ⟨?_, ?_, ?_, ?_⟩
  · intro h0
    unfold createWorkCbModel at h0 ⊢
    split_ifs at h0 ⊢ <;>
      first
        | rfl
        | exact absurd h0 (uv_translate_ne_zero _ (by assumption))
  · unfold createWorkCbModel
    split_ifs <;> rfl
  · intro hne
    simp only [stepF] at hne
    split at hne
    · rename_i hg
      exact ⟨hg.2.1, hg.1⟩
    · exact absurd rfl hne
  · intro st f' out hstep hready
    simp only [stepF] at hstep
    split at hstep
    · simp only [Option.some.injEq, Prod.mk.injEq] at hstep
      obtain ⟨hf', _⟩ := hstep
      subst hf'
      have hg : (if (if f.closing = true then UV_ECANCELED else st) = 0
          then FState.ready else FState.errored) = FState.ready :=
        maybeClosed_state_ready _ hready
      by_cases hc : f.closing = true
      · rw [hc, if_pos rfl] at hg
        rw [if_neg (by decide : ¬ (UV_ECANCELED = (0 : Int)))] at hg
        exact absurd hg (by decide)
      · have hc' : f.closing = false := by
          revert hc
          cases f.closing <;> simp
        rw [hc', if_neg (by decide : ¬ (false = true))] at hg
        by_cases h0 : st = 0
        · exact ⟨h0, hc'⟩
        · rw [if_neg h0] at hg
          exact absurd hg (by decide)
    · exact absurd hstep (by simp)

theorem C5_preallocate_then_sync_witness :
    ((createWorkCbModel true envAllOk).2 =
      [Syscall.fallocate, Syscall.fsyncFile, Syscall.syncDir] ++
        (if true then [Syscall.setDirectIO] else [])) ∧
    (fReady1.state = FState.ready ∧ fReady1.closing = false) ∧
    ((0 : Int) = 0 ∧ fCreating1.closing = false) :=
  ⟨(C5_preallocate_then_sync true envAllOk fReady1 7 (by decide)).1 rfl,
   (C5_preallocate_then_sync true envAllOk fReady1 7 (by decide)).2.2.1
     (by decide),
   (C5_preallocate_then_sync true envAllOk fCreating1 7 (by decide)).2.2.2
     0 fReady1 [Out.createCb 0] (by decide) (by decide)⟩

/-- C6: when direct I/O is requested the successful creation sequence
switches the file descriptor to O_DIRECT (and only then); submission
buffers are aligned to the block size under direct I/O (spec-modelled,
the alignment helpers are outside src/); and in every build the file is
either opened with O_DSYNC (RWF_DSYNC unavailable) or every submitted
iocb carries the per-request durable-write flag RWF_DSYNC, so every
completed write is durable. -/
theorem C6_durability_flags (caps : Caps) (async : Bool) (fd efd : Int)
    (n off : Nat) (direct : Bool) (env : CreateEnv) (blockSize : Nat)
    (henv : env.fsync_errno ≠ 0) :
    ((createOpenFlags caps).o_dsync = !caps.rwf_dsync) ∧
    ((mkWriteIocb caps async fd efd n off).rwf_dsync = caps.rwf_dsync) ∧
    ((createWorkCbModel direct env).1 = 0 →
      (Syscall.setDirectIO ∈ (createWorkCbModel direct env).2 ↔
        direct = true)) ∧
    (blockSize ∣ specSubmissionAlignment true blockSize) := by
  refine ⟨rfl, rfl, ?_, ?_⟩
  · intro h0
    unfold createWorkCbModel at h0 ⊢
    split_ifs at h0 ⊢ <;>
      first
        | exact absurd h0 (uv_translate_ne_zero _ (by assumption))
        | simp_all
  · unfold specSubmissionAlignment
    simp

theorem C6_durability_flags_witness :
    ((createOpenFlags capsAll).o_dsync = !capsAll.rwf_dsync) ∧
    ((mkWriteIocb capsAll true 3 4 1 0).rwf_dsync = capsAll.rwf_dsync) ∧
    (Syscall.setDirectIO ∈ (createWorkCbModel true envAllOk).2 ↔
      true = true) ∧
    ((8 : Nat) ∣ specSubmissionAlignment true 8) :=
  ⟨(C6_durability_flags capsAll true 3 4 1 0 true envAllOk 8 (by decide)).1,
   (C6_durability_flags capsAll true 3 4 1 0 true envAllOk 8 (by decide)).2.1,
   (C6_durability_flags capsAll true 3 4 1 0 true envAllOk 8 (by decide)).2.2.1
     rfl,
   (C6_durability_flags capsAll true 3 4 1 0 true envAllOk 8 (by decide)).2.2.2⟩

/-- C1 counterexample: after a write request completes with an I/O error
the handle is still READY and a later uvFileWrite call is accepted (the
new request is queued, id 8 in flight), contradicting the claim that
every later uvFileWrite call on the handle returns an error without
submitting I/O. -/
theorem C1_counterexample :
    runEvents uvFileInitModel traceWriteErrorThenWrite =
      some (⟨FState.ready, false, 1, [8]⟩,
        [Out.createCb 0, Out.writeCb 7 (- EIO)]) := by
  decide

/-- C1 amended: a write I/O error does not latch the handle: the failing
request's callback receives the error status and the handle remains
READY, continuing to accept uvFileWrite submissions; only a failed
creation latches the ERRORED state (createAfterWorkCb); and uvFileWrite
guards the READY, non-closing handle with assertions rather than
returning a persistent error. -/
theorem C1_amended :
    (∀ f st f' out, stepF f (Ev.createDone st) = some (f', out) →
      f.closing = false → st ≠ 0 → f'.state = FState.errored) ∧
    (∀ f id res f' out, stepF f (Ev.writeDonePoll id res) = some (f', out) →
      f.closing = false → res ≠ -EAGAIN →
      f'.state = FState.ready ∧ Out.writeCb id res ∈ out) ∧
    (∀ f id res f' out, stepF f (Ev.writeDoneWork id res) = some (f', out) →
      f.closing = false →
      f'.state = FState.ready ∧ Out.writeCb id res ∈ out) ∧
    (∀ f id, stepF f (Ev.write id) ≠ none →
      f.state = FState.ready ∧ f.closing = false) := by
  refine ⟨?_, ?_, ?_, ?_⟩
  · intro f st f' out hstep hcl hst
    simp only [stepF] at hstep
    split at hstep
    · simp only [Option.some.injEq, Prod.mk.injEq] at hstep
      obtain ⟨hf', _⟩ := hstep
      subst hf'
      simp [maybeClosed, hcl, hst]
    · exact absurd hstep (by simp)
  · intro f id res f' out hstep hcl hres
    simp only [stepF] at hstep
    split at hstep
    · rename_i hg
      split at hstep
      · rename_i hclosing
        rw [hcl] at hclosing
        exact absurd hclosing (by decide)
      · unfold writeFinishStep at hstep
        rw [maybeClosed_not_closing
          { f with write_queue := f.write_queue.erase id } hcl] at hstep
        simp only [Option.some.injEq, Prod.mk.injEq] at hstep
        obtain ⟨hf', hout⟩ := hstep
        subst hf'
        exact ⟨hg.1, hout ▸ List.mem_cons_self _ _⟩
    · exact absurd hstep (by simp)
  · intro f id res f' out hstep hcl
    simp only [stepF] at hstep
    split at hstep
    · rename_i hg
      split at hstep
      · rename_i hclosing
        rw [hcl] at hclosing
        exact absurd hclosing (by decide)
      · unfold writeFinishStep at hstep
        rw [maybeClosed_not_closing
          { f with write_queue := f.write_queue.erase id } hcl] at hstep
        simp only [Option.some.injEq, Prod.mk.injEq] at hstep
        obtain ⟨hf', hout⟩ := hstep
        subst hf'
        exact ⟨hg.1, hout ▸ List.mem_cons_self _ _⟩
    · exact absurd hstep (by simp)
  · intro f id hne
    simp only [stepF] at hne
    split at hne
    · rename_i hg
      exact ⟨hg.2.1, hg.1⟩
    · exact absurd rfl hne

theorem C1_amended_witness :
    fErrored1.state = FState.errored ∧
    (fReady1.state = FState.ready ∧
      Out.writeCb 7 (-5) ∈ [Out.writeCb 7 (-5)]) ∧
    (fReady1.state = FState.ready ∧
      Out.writeCb 7 (-6) ∈ [Out.writeCb 7 (-6)]) ∧
    (fReady1.state = FState.ready ∧ fReady1.closing = false) :=
  ⟨C1_amended.1 fCreating1 (-5) fErrored1 [Out.createCb (-5)]
      (by decide) rfl (by decide),
   C1_amended.2.1 fQueued7 7 (-5) fReady1 [Out.writeCb 7 (-5)]
      (by decide) rfl (by decide),
   C1_amended.2.2.1 fQueued7 7 (-6) fReady1 [Out.writeCb 7 (-6)]
      (by decide) rfl,
   C1_amended.2.2.2 fReady1 7 (by decide)⟩

/-- C3 counterexample: when io_submit fails with EOPNOTSUPP the request
is not resubmitted on a worker thread: uvFileWrite trips assert(0)
(src/uv_file.c line 566), the code treating an unsupported RWF_NOWAIT as
impossible after the startup capability probe. -/
theorem C3_counterexample :
    uvFileWriteSubmit capsAll true iocbAsyncEx
        (IoSubmitOutcome.err EOPNOTSUPP) = SubmitResult.assertFailed ∧
    uvFileWriteSubmit capsAll true iocbAsyncEx
        (IoSubmitOutcome.err EOPNOTSUPP) ≠
      SubmitResult.queuedToWorker (clearNowaitFlags iocbAsyncEx) := by
  decide

/-- C3 amended: only would-block triggers the worker-thread fallback:
EAGAIN at io_submit time queues the request to the threadpool with the
eventfd completion flag, the eventfd and RWF_NOWAIT cleared; EAGAIN as a
completion result seen by writePollCb requeues the request the same way;
and a threadpool completion always reaches the request callback.
EOPNOTSUPP at submit time instead trips an assertion. -/
theorem C3_amended :
    (∀ caps i, caps.rwf_nowait = true →
      uvFileWriteSubmit caps true i (IoSubmitOutcome.err EAGAIN) =
        SubmitResult.queuedToWorker (clearNowaitFlags i)) ∧
    (∀ i, (clearNowaitFlags i).rwf_nowait = false ∧
      (clearNowaitFlags i).flag_resfd = false ∧
      (clearNowaitFlags i).aio_resfd = 0) ∧
    (∀ id i rest, pollEvents true false ((id, i, -EAGAIN) :: rest) =
      [PollOut.requeuedToWorker id (clearNowaitFlags i)]) ∧
    (∀ f id res f' out, stepF f (Ev.writeDoneWork id res) = some (f', out) →
      ∃ st, Out.writeCb id st ∈ out) := by
  refine ⟨?_, ?_, ?_, ?_⟩
  · intro caps i h
    simp [uvFileWriteSubmit, h, EAGAIN, EOPNOTSUPP]
  · intro i
    exact ⟨rfl, rfl, rfl⟩
  · intro id i rest
    simp [pollEvents]
  · intro f id res f' out hstep
    simp only [stepF] at hstep
    split at hstep
    · simp only [writeFinishStep, Option.some.injEq, Prod.mk.injEq] at hstep
      obtain ⟨_, hout⟩ := hstep
      exact ⟨_, hout ▸ List.mem_cons_self _ _⟩
    · exact absurd hstep (by simp)

theorem C3_amended_witness :
    (uvFileWriteSubmit capsAll true iocbAsyncEx (IoSubmitOutcome.err EAGAIN) =
      SubmitResult.queuedToWorker (clearNowaitFlags iocbAsyncEx)) ∧
    ((clearNowaitFlags iocbAsyncEx).rwf_nowait = false ∧
      (clearNowaitFlags iocbAsyncEx).flag_resfd = false ∧
      (clearNowaitFlags iocbAsyncEx).aio_resfd = 0) ∧
    (pollEvents true false [(9, iocbAsyncEx, -EAGAIN)] =
      [PollOut.requeuedToWorker 9 (clearNowaitFlags iocbAsyncEx)]) ∧
    (∃ st, Out.writeCb 7 st ∈ [Out.writeCb 7 (-5)]) :=
  ⟨C3_amended.1 capsAll iocbAsyncEx rfl,
   C3_amended.2.1 iocbAsyncEx,
   C3_amended.2.2.1 9 iocbAsyncEx [],
   C3_amended.2.2.2 fQueued7 7 (-5) fReady1 [Out.writeCb 7 (-5)] (by decide)⟩

theorem maybeClosed_fst_n_events (f : UvFile) :
    (maybeClosed f).1.n_events = f.n_events := by
  unfold maybeClosed
  split <;> rfl

theorem maybeClosed_fst_state_ne_idle (f : UvFile)
    (h : f.state ≠ FState.idle) : (maybeClosed f).1.state ≠ FState.idle := by
  unfold maybeClosed
  split
  · simp
  · exact h

/-- C2: after uvFileClose is requested no new write or create submission
is accepted; a request leaves the write queue only by delivering its
completion callback (writes are awaited, never dropped); and whenever the
close callback fires, the write queue is empty, the handle is closed and
no create is in flight, so the close callback is never invoked while a
create or write request is still in flight. -/
theorem C2_close_drains :
    (∀ f id n, f.closing = true →
      stepF f (Ev.write id) = none ∧ stepF f (Ev.create n) = none) ∧
    (∀ f e f' out, stepF f e = some (f', out) → Out.closeCb ∈ out →
      f'.write_queue = [] ∧ f'.state = FState.closed ∧ f'.closing = true) ∧
    (∀ f e f' out id, stepF f e = some (f', out) → id ∈ f.write_queue →
      id ∉ f'.write_queue → ∃ st, Out.writeCb id st ∈ out) := by
  refine ⟨?_, ?_, ?_⟩
  · intro f id n hcl
    constructor <;> simp [stepF, hcl]
  · intro f e f' out hstep hmem
    cases e with
    | create n =>
      simp only [stepF] at hstep
      split at hstep
      · simp only [Option.some.injEq, Prod.mk.injEq] at hstep
        obtain ⟨_, hout⟩ := hstep
        rw [← hout] at hmem
        simp at hmem
      · exact absurd hstep (by simp)
    | write id =>
      simp only [stepF] at hstep
      split at hstep
      · simp only [Option.some.injEq, Prod.mk.injEq] at hstep
        obtain ⟨_, hout⟩ := hstep
        rw [← hout] at hmem
        simp at hmem
      · exact absurd hstep (by simp)
    | createDone st =>
      simp only [stepF] at hstep
      split at hstep
      · simp only [Option.some.injEq, Prod.mk.injEq] at hstep
        obtain ⟨hf', hout⟩ := hstep
        subst hf'
        rw [← hout] at hmem
        simp only [List.mem_cons] at hmem
        rcases hmem with h | h
        · exact absurd h (by simp)
        · have hq := closeCb_mem_maybeClosed _ h
          exact ⟨(maybeClosed_fst_queue _).trans hq.1, hq.2.1,
                 (maybeClosed_fst_closing _).trans hq.2.2⟩
      · exact absurd hstep (by simp)
    | writeDoneWork id res =>
      simp only [stepF] at hstep
      split at hstep
      · unfold writeFinishStep at hstep
        simp only [Option.some.injEq, Prod.mk.injEq] at hstep
        obtain ⟨hf', hout⟩ := hstep
        subst hf'
        rw [← hout] at hmem
        simp only [List.mem_cons] at hmem
        rcases hmem with h | h
        · exact absurd h (by simp)
        · have hq := closeCb_mem_maybeClosed _ h
          exact ⟨(maybeClosed_fst_queue _).trans hq.1, hq.2.1,
                 (maybeClosed_fst_closing _).trans hq.2.2⟩
      · exact absurd hstep (by simp)
    | writeDonePoll id res =>
      simp only [stepF] at hstep
      split at hstep
      · split at hstep
        · unfold writeFinishStep at hstep
          simp only [Option.some.injEq, Prod.mk.injEq] at hstep
          obtain ⟨hf', hout⟩ := hstep
          subst hf'
          rw [← hout] at hmem
          simp only [List.mem_cons] at hmem
          rcases hmem with h | h
          · exact absurd h (by simp)
          · have hq := closeCb_mem_maybeClosed _ h
            exact ⟨(maybeClosed_fst_queue _).trans hq.1, hq.2.1,
                   (maybeClosed_fst_closing _).trans hq.2.2⟩
        · split at hstep
          · simp only [Option.some.injEq, Prod.mk.injEq] at hstep
            obtain ⟨_, hout⟩ := hstep
            rw [← hout] at hmem
            simp at hmem
          · unfold writeFinishStep at hstep
            simp only [Option.some.injEq, Prod.mk.injEq] at hstep
            obtain ⟨hf', hout⟩ := hstep
            subst hf'
            rw [← hout] at hmem
            simp only [List.mem_cons] at hmem
            rcases hmem with h | h
            · exact absurd h (by simp)
            · have hq := closeCb_mem_maybeClosed _ h
              exact ⟨(maybeClosed_fst_queue _).trans hq.1, hq.2.1,
                     (maybeClosed_fst_closing _).trans hq.2.2⟩
      · exact absurd hstep (by simp)
    | close =>
      simp only [stepF] at hstep
      split at hstep
      · simp only [Option.some.injEq] at hstep
        obtain ⟨hf', hout⟩ : (maybeClosed { f with closing := true }).1 = f' ∧
            (maybeClosed { f with closing := true }).2 = out := by
          rw [hstep]
          exact ⟨rfl, rfl⟩
        subst hf'
        rw [← hout] at hmem
        have hq := closeCb_mem_maybeClosed _ hmem
        exact ⟨(maybeClosed_fst_queue _).trans hq.1, hq.2.1,
               (maybeClosed_fst_closing _).trans hq.2.2⟩
      · exact absurd hstep (by simp)
  · intro f e f' out id hstep hin hnotin
    cases e with
    | create n =>
      simp only [stepF] at hstep
      split at hstep
      · simp only [Option.some.injEq, Prod.mk.injEq] at hstep
        obtain ⟨hf', _⟩ := hstep
        subst hf'
        exact absurd hin hnotin
      · exact absurd hstep (by simp)
    | createDone st =>
      simp only [stepF] at hstep
      split at hstep
      · simp only [Option.some.injEq, Prod.mk.injEq] at hstep
        obtain ⟨hf', _⟩ := hstep
        subst hf'
        rw [maybeClosed_fst_queue] at hnotin
        exact absurd hin hnotin
      · exact absurd hstep (by simp)
    | write id2 =>
      simp only [stepF] at hstep
      split at hstep
      · simp only [Option.some.injEq, Prod.mk.injEq] at hstep
        obtain ⟨hf', _⟩ := hstep
        subst hf'
        exact absurd (List.mem_append_left _ hin) hnotin
      · exact absurd hstep (by simp)
    | writeDoneWork id2 res =>
      simp only [stepF] at hstep
      split at hstep
      · unfold writeFinishStep at hstep
        simp only [Option.some.injEq, Prod.mk.injEq] at hstep
        obtain ⟨hf', hout⟩ := hstep
        subst hf'
        rw [maybeClosed_fst_queue] at hnotin
        by_cases hid : id = id2
        · subst hid
          exact ⟨_, hout ▸ List.mem_cons_self _ _⟩
        · exact absurd ((List.mem_erase_of_ne hid).mpr hin) hnotin
      · exact absurd hstep (by simp)
    | writeDonePoll id2 res =>
      simp only [stepF] at hstep
      split at hstep
      · split at hstep
        · unfold writeFinishStep at hstep
          simp only [Option.some.injEq, Prod.mk.injEq] at hstep
          obtain ⟨hf', hout⟩ := hstep
          subst hf'
          rw [maybeClosed_fst_queue] at hnotin
          by_cases hid : id = id2
          · subst hid
            exact ⟨_, hout ▸ List.mem_cons_self _ _⟩
          · exact absurd ((List.mem_erase_of_ne hid).mpr hin) hnotin
        · split at hstep
          · simp only [Option.some.injEq, Prod.mk.injEq] at hstep
            obtain ⟨hf', _⟩ := hstep
            subst hf'
            exact absurd hin hnotin
          · unfold writeFinishStep at hstep
            simp only [Option.some.injEq, Prod.mk.injEq] at hstep
            obtain ⟨hf', hout⟩ := hstep
            subst hf'
            rw [maybeClosed_fst_queue] at hnotin
            by_cases hid : id = id2
            · subst hid
              exact ⟨_, hout ▸ List.mem_cons_self _ _⟩
            · exact absurd ((List.mem_erase_of_ne hid).mpr hin) hnotin
      · exact absurd hstep (by simp)
    | close =>
      simp only [stepF] at hstep
      split at hstep
      · simp only [Option.some.injEq] at hstep
        obtain ⟨hf', _⟩ : (maybeClosed { f with closing := true }).1 = f' ∧
            (maybeClosed { f with closing := true }).2 = out := by
          rw [hstep]
          exact ⟨rfl, rfl⟩
        subst hf'
        rw [maybeClosed_fst_queue] at hnotin
        exact absurd hin hnotin
      · exact absurd hstep (by simp)

theorem C2_close_drains_witness :
    (stepF fClosing7 (Ev.write 9) = none ∧
      stepF fClosing7 (Ev.create 2) = none) ∧
    (fClosedT.write_queue = [] ∧ fClosedT.state = FState.closed ∧
      fClosedT.closing = true) ∧
    (∃ st, Out.writeCb 7 st ∈ [Out.writeCb 7 UV_ECANCELED, Out.closeCb]) :=
  ⟨C2_close_drains.1 fClosing7 9 2 rfl,
   C2_close_drains.2.1 fClosing7 (Ev.writeDoneWork 7 0) fClosedT
     [Out.writeCb 7 UV_ECANCELED, Out.closeCb] (by decide) (by decide),
   C2_close_drains.2.2 fClosing7 (Ev.writeDoneWork 7 0) fClosedT
     [Out.writeCb 7 UV_ECANCELED, Out.closeCb] 7
     (by decide) (by decide) (by decide)⟩

/-- C4: once uvFileClose has been requested, every in-flight write is
awaited rather than aborted (the close transition never drops a queued
request and never fires the close callback while the queue is nonempty),
and each in-flight write's completion callback is invoked exactly once
with the UV_ECANCELED status, regardless of the actual I/O result, on
both the threadpool path (writeAfterWorkCb) and the eventfd poll path
(writePollCb); once delivered, no further completion for that request is
possible. Nodup hypotheses record that the intrusive queue never holds
the same request twice (uvFileWrite refuses a queued request), which the
last conjunct shows is preserved by every transition. -/
theorem C4_cancelled_on_close :
    (∀ f id res f' out, f.closing = true →
      stepF f (Ev.writeDoneWork id res) = some (f', out) →
      Out.writeCb id UV_ECANCELED ∈ out ∧ f'.closing = true ∧
      (f.write_queue.Nodup → id ∉ f'.write_queue ∧
        ∀ res2, stepF f' (Ev.writeDoneWork id res2) = none ∧
                stepF f' (Ev.writeDonePoll id res2) = none)) ∧
    (∀ f id res f' out, f.closing = true →
      stepF f (Ev.writeDonePoll id res) = some (f', out) →
      Out.writeCb id UV_ECANCELED ∈ out ∧ f'.closing = true ∧
      (f.write_queue.Nodup → id ∉ f'.write_queue)) ∧
    (∀ f e f' out, stepF f e = some (f', out) → f.write_queue.Nodup →
      f'.write_queue.Nodup) ∧
    (∀ f f' out, stepF f Ev.close = some (f', out) →
      f'.write_queue = f.write_queue ∧
      (f.write_queue ≠ [] → Out.closeCb ∉ out)) := by
  refine ⟨?_, ?_, ?_, ?_⟩
  · intro f id res f' out hcl hstep
    simp only [stepF] at hstep
    split at hstep
    · unfold writeFinishStep at hstep
      simp only [Option.some.injEq, Prod.mk.injEq] at hstep
      obtain ⟨hf', hout⟩ := hstep
      subst hf'
      refine ⟨hout ▸ List.mem_cons_self _ _,
              (maybeClosed_fst_closing _).trans hcl, ?_⟩
      intro hnd
      have hni : id ∉ (maybeClosed
          { f with write_queue := f.write_queue.erase id }).1.write_queue := by
        rw [maybeClosed_fst_queue]
        intro hm
        exact ((hnd.mem_erase_iff).mp hm).1 rfl
      refine ⟨hni, ?_⟩
      intro res2
      constructor <;> simp [stepF, hni]
    · exact absurd hstep (by simp)
  · intro f id res f' out hcl hstep
    simp only [stepF] at hstep
    split at hstep
    · unfold writeFinishStep at hstep
      simp only [Option.some.injEq, Prod.mk.injEq] at hstep
      obtain ⟨hf', hout⟩ := hstep
      subst hf'
      refine ⟨hout ▸ List.mem_cons_self _ _,
              (maybeClosed_fst_closing _).trans hcl, ?_⟩
      intro hnd
      rw [maybeClosed_fst_queue]
      intro hm
      exact ((hnd.mem_erase_iff).mp hm).1 rfl
    · exact absurd hstep (by simp)
  · intro f e f' out hstep hnd
    cases e with
    | create n =>
      simp only [stepF] at hstep
      split at hstep
      · simp only [Option.some.injEq, Prod.mk.injEq] at hstep
        obtain ⟨hf', _⟩ := hstep
        subst hf'
        exact hnd
      · exact absurd hstep (by simp)
    | createDone st =>
      simp only [stepF] at hstep
      split at hstep
      · simp only [Option.some.injEq, Prod.mk.injEq] at hstep
        obtain ⟨hf', _⟩ := hstep
        subst hf'
        rw [maybeClosed_fst_queue]
        exact hnd
      · exact absurd hstep (by simp)
    | write id =>
      simp only [stepF] at hstep
      split at hstep
      · rename_i hg
        simp only [Option.some.injEq, Prod.mk.injEq] at hstep
        obtain ⟨hf', _⟩ := hstep
        subst hf'
        refine List.Nodup.append hnd (List.nodup_singleton id) ?_
        intro a ha hb
        simp only [List.mem_singleton] at hb
        subst hb
        exact hg.2.2.2 ha
      · exact absurd hstep (by simp)
    | writeDoneWork id res =>
      simp only [stepF] at hstep
      split at hstep
      · unfold writeFinishStep at hstep
        simp only [Option.some.injEq, Prod.mk.injEq] at hstep
        obtain ⟨hf', _⟩ := hstep
        subst hf'
        rw [maybeClosed_fst_queue]
        exact hnd.erase id
      · exact absurd hstep (by simp)
    | writeDonePoll id res =>
      simp only [stepF] at hstep
      split at hstep
      · split at hstep
        · unfold writeFinishStep at hstep
          simp only [Option.some.injEq, Prod.mk.injEq] at hstep
          obtain ⟨hf', _⟩ := hstep
          subst hf'
          rw [maybeClosed_fst_queue]
          exact hnd.erase id
        · split at hstep
          · simp only [Option.some.injEq, Prod.mk.injEq] at hstep
            obtain ⟨hf', _⟩ := hstep
            subst hf'
            exact hnd
          · unfold writeFinishStep at hstep
            simp only [Option.some.injEq, Prod.mk.injEq] at hstep
            obtain ⟨hf', _⟩ := hstep
            subst hf'
            rw [maybeClosed_fst_queue]
            exact hnd.erase id
      · exact absurd hstep (by simp)
    | close =>
      simp only [stepF] at hstep
      split at hstep
      · simp only [Option.some.injEq] at hstep
        obtain ⟨hf', _⟩ : (maybeClosed { f with closing := true }).1 = f' ∧
            (maybeClosed { f with closing := true }).2 = out := by
          rw [hstep]
          exact ⟨rfl, rfl⟩
        subst hf'
        rw [maybeClosed_fst_queue]
        exact hnd
      · exact absurd hstep (by simp)
  · intro f f' out hstep
    simp only [stepF] at hstep
    split at hstep
    · simp only [Option.some.injEq] at hstep
      obtain ⟨hf', hout⟩ : (maybeClosed { f with closing := true }).1 = f' ∧
          (maybeClosed { f with closing := true }).2 = out := by
        rw [hstep]
        exact ⟨rfl, rfl⟩
      subst hf'
      refine ⟨maybeClosed_fst_queue _, ?_⟩
      intro hne hmem
      rw [← hout] at hmem
      exact hne (closeCb_mem_maybeClosed _ hmem).1
    · exact absurd hstep (by simp)

theorem C4_cancelled_on_close_witness :
    (Out.writeCb 7 UV_ECANCELED ∈ [Out.writeCb 7 UV_ECANCELED, Out.closeCb] ∧
      fClosedT.closing = true ∧
      (7 ∉ fClosedT.write_queue ∧
        ∀ res2, stepF fClosedT (Ev.writeDoneWork 7 res2) = none ∧
                stepF fClosedT (Ev.writeDonePoll 7 res2) = none)) ∧
    (Out.writeCb 7 UV_ECANCELED ∈ [Out.writeCb 7 UV_ECANCELED] ∧
      UvFile.closing ⟨FState.ready, true, 2, [8]⟩ = true ∧
      7 ∉ UvFile.write_queue ⟨FState.ready, true, 2, [8]⟩) ∧
    (UvFile.write_queue ⟨FState.ready, true, 2, [8]⟩).Nodup ∧
    (fQueued7.write_queue = fQueued7.write_queue ∧
      (fQueued7.write_queue ≠ [] → Out.closeCb ∉ ([] : List Out))) :=
  ⟨(fun h => ⟨h.1, h.2.1, h.2.2 (by decide)⟩)
     (C4_cancelled_on_close.1 fClosing7 7 0 fClosedT
       [Out.writeCb 7 UV_ECANCELED, Out.closeCb] rfl (by decide)),
   (fun h => ⟨h.1, h.2.1, h.2.2 (by decide)⟩)
     (C4_cancelled_on_close.2.1 fClosing2 7 99 ⟨FState.ready, true, 2, [8]⟩
       [Out.writeCb 7 UV_ECANCELED] rfl (by decide)),
   C4_cancelled_on_close.2.2.1 fClosing2 (Ev.writeDonePoll 7 99)
     ⟨FState.ready, true, 2, [8]⟩ [Out.writeCb 7 UV_ECANCELED]
     (by decide) (by decide),
   C4_cancelled_on_close.2.2.2 fQueued7
     ⟨FState.ready, true, 1, [7]⟩ [] (by decide)⟩

/-- C7 counterexample: on a file created with max_n_writes = 2, two
writes are submitted (1 first, then 2) and the kernel completes the
second one first; writePollCb processes io_events in the order
io_getevents returns them (completion order), so 2's callback fires
before 1's, refuting the claim that completion callbacks always follow
submission order on the same uvFile. -/
theorem C7_counterexample :
    runEvents uvFileInitModel traceTwoWritesOutOfOrder =
      some (⟨FState.ready, false, 2, []⟩,
        [Out.createCb 0, Out.writeCb 2 0, Out.writeCb 1 0]) := by
  decide

/-- C7 amended: completion callbacks follow submission order only
because at most one write may be in flight: with max_n_writes = 1
uvFileWrite asserts the queue empty at each submission, so there is
never a pair of concurrently in-flight writes (the seqWriter invariant
is preserved by every transition) and every completion callback belongs
to the unique queued request; with max_n_writes > 1 callbacks may fire
in kernel completion order, not submission order. -/
theorem C7_amended :
    (∀ f id, stepF f (Ev.write id) ≠ none → f.n_events = 1 →
      f.write_queue = []) ∧
    (∀ f e f' out, stepF f e = some (f', out) → seqWriter f →
      seqWriter f') ∧
    (∀ f id res f' out,
      stepF f (Ev.writeDoneWork id res) = some (f', out) ∨
      stepF f (Ev.writeDonePoll id res) = some (f', out) →
      id ∈ f.write_queue) := by
  refine ⟨?_, ?_, ?_⟩
  · intro f id hne h1
    simp only [stepF] at hne
    split at hne
    · rename_i hg
      exact hg.2.2.1 h1
    · exact absurd rfl hne
  · intro f e f' out hstep hs
    obtain ⟨hsn, hsi, hsl⟩ := hs
    cases e with
    | create n =>
      simp only [stepF] at hstep
      split at hstep
      · rename_i hg
        exact absurd hg.2.1 hsi
      · exact absurd hstep (by simp)
    | createDone st =>
      simp only [stepF] at hstep
      split at hstep
      · rename_i hg
        simp only [Option.some.injEq, Prod.mk.injEq] at hstep
        obtain ⟨hf', _⟩ := hstep
        subst hf'
        refine ⟨(maybeClosed_fst_n_events _).trans hsn, ?_, ?_⟩
        · refine maybeClosed_fst_state_ne_idle _ ?_
          split <;> split <;> simp
        · rw [maybeClosed_fst_queue]
          exact hsl
      · exact absurd hstep (by simp)
    | write id =>
      simp only [stepF] at hstep
      split at hstep
      · rename_i hg
        simp only [Option.some.injEq, Prod.mk.injEq] at hstep
        obtain ⟨hf', _⟩ := hstep
        subst hf'
        refine ⟨hsn, by simpa using hsi, ?_⟩
        rw [hg.2.2.1 hsn]
        simp
      · exact absurd hstep (by simp)
    | writeDoneWork id res =>
      simp only [stepF] at hstep
      split at hstep
      · unfold writeFinishStep at hstep
        simp only [Option.some.injEq, Prod.mk.injEq] at hstep
        obtain ⟨hf', _⟩ := hstep
        subst hf'
        refine ⟨(maybeClosed_fst_n_events _).trans hsn,
                maybeClosed_fst_state_ne_idle _ (by simpa using hsi), ?_⟩
        rw [maybeClosed_fst_queue]
        exact le_trans (List.Sublist.length_le (List.erase_sublist _ _)) hsl
      · exact absurd hstep (by simp)
    | writeDonePoll id res =>
      simp only [stepF] at hstep
      split at hstep
      · split at hstep
        · unfold writeFinishStep at hstep
          simp only [Option.some.injEq, Prod.mk.injEq] at hstep
          obtain ⟨hf', _⟩ := hstep
          subst hf'
          refine ⟨(maybeClosed_fst_n_events _).trans hsn,
                  maybeClosed_fst_state_ne_idle _ (by simpa using hsi), ?_⟩
          rw [maybeClosed_fst_queue]
          exact le_trans (List.Sublist.length_le (List.erase_sublist _ _)) hsl
        · split at hstep
          · simp only [Option.some.injEq, Prod.mk.injEq] at hstep
            obtain ⟨hf', _⟩ := hstep
            subst hf'
            exact ⟨hsn, hsi, hsl⟩
          · unfold writeFinishStep at hstep
            simp only [Option.some.injEq, Prod.mk.injEq] at hstep
            obtain ⟨hf', _⟩ := hstep
            subst hf'
            refine ⟨(maybeClosed_fst_n_events _).trans hsn,
                    maybeClosed_fst_state_ne_idle _ (by simpa using hsi), ?_⟩
            rw [maybeClosed_fst_queue]
            exact le_trans (List.Sublist.length_le (List.erase_sublist _ _)) hsl
      · exact absurd hstep (by simp)
    | close =>
      simp only [stepF] at hstep
      split at hstep
      · simp only [Option.some.injEq] at hstep
        obtain ⟨hf', _⟩ : (maybeClosed { f with closing := true }).1 = f' ∧
            (maybeClosed { f with closing := true }).2 = out := by
          rw [hstep]
          exact ⟨rfl, rfl⟩
        subst hf'
        refine ⟨(maybeClosed_fst_n_events _).trans hsn,
                maybeClosed_fst_state_ne_idle _ (by simpa using hsi), ?_⟩
        rw [maybeClosed_fst_queue]
        exact hsl
      · exact absurd hstep (by simp)
  · intro f id res f' out hstep
    rcases hstep with hstep | hstep <;>
    · simp only [stepF] at hstep
      split at hstep
      · rename_i hg
        exact hg.2
      · exact absurd hstep (by simp)

theorem C7_amended_witness :
    fReady1.write_queue = [] ∧ seqWriter fQueued7 ∧ 7 ∈ fQueued7.write_queue :=
  ⟨C7_amended.1 fReady1 7 (by decide) rfl,
   C7_amended.2.1 fReady1 (Ev.write 7) fQueued7 [] (by decide)
     ⟨rfl, by decide, by decide⟩,
   C7_amended.2.2 fQueued7 7 0 fReady1 [Out.writeCb 7 0]
     (Or.inl (by decide))⟩

theorem pollEvents_no_eagain (c : Bool) (l : List (Nat × Iocb × Int))
    (h : ∀ x ∈ l, x.2.2 ≠ -EAGAIN) :
    pollEvents c false l =
      l.map (fun x => PollOut.finished x.1 x.2.2) := by
  induction l with
  | nil => rfl
  | cons a rest ih =>
    obtain ⟨id, i, res⟩ := a
    have hres : ¬ (c = true ∧ res = -EAGAIN) := fun hc =>
      (h (id, i, res) (List.mem_cons_self _ _)) hc.2
    simp only [pollEvents]
    rw [if_neg (by decide : ¬ ((false : Bool) = true)), if_neg hres]
    rw [ih (fun x hx => h x (List.mem_cons_of_mem _ hx))]
    rfl

theorem pollEvents_closing (c : Bool) (l : List (Nat × Iocb × Int)) :
    pollEvents c true l =
      l.map (fun x => PollOut.finished x.1 UV_ECANCELED) := by
  induction l with
  | nil => rfl
  | cons a rest ih =>
    obtain ⟨id, i, res⟩ := a
    simp only [pollEvents]
    rw [if_pos trivial, ih]
    rfl

/-- C8 counterexample: the poll handler does not finish every completed
request fetched from the AIO context: with two fetched events, the first
carrying EAGAIN and the second a genuine completion of 7 bytes, the
handler requeues the first request and returns immediately, so the
second event's request is never finished (the early return at
src/uv_file.c line 295). -/
theorem C8_counterexample :
    writePollCbModel true false 2 (some 1)
        [(1, iocbAsyncEx, -EAGAIN), (2, iocbPlainEx, 7)] =
      [PollOut.requeuedToWorker 1 (clearNowaitFlags iocbAsyncEx)] ∧
    PollOut.finished 2 7 ∉
      writePollCbModel true false 2 (some 1)
        [(1, iocbAsyncEx, -EAGAIN), (2, iocbPlainEx, 7)] := by
  decide

/-- C8 amended: the value read from the eventfd is an advisory wake
only: the handler's behaviour is identical for any two read values, and
it drains up to n_events ready events in a single io_getevents call;
every fetched event is finished in order with its own result (with
UV_ECANCELED while closing), except that an event carrying EAGAIN makes
the handler requeue that request to the threadpool and return
immediately, leaving the later events of that batch unprocessed. -/
theorem C8_advisory_eventfd :
    (∀ c cl n v1 v2 ready,
      writePollCbModel c cl n (some v1) ready =
      writePollCbModel c cl n (some v2) ready) ∧
    (∀ c n v ready, (∀ x ∈ List.take n ready, x.2.2 ≠ -EAGAIN) →
      writePollCbModel c false n (some v) ready =
        (List.take n ready).map (fun x => PollOut.finished x.1 x.2.2)) ∧
    (∀ c n v ready,
      writePollCbModel c true n (some v) ready =
        (List.take n ready).map
          (fun x => PollOut.finished x.1 UV_ECANCELED)) := by
  refine ⟨?_, ?_, ?_⟩
  · intro c cl n v1 v2 ready
    rfl
  · intro c n v ready h
    exact pollEvents_no_eagain c _ h
  · intro c n v ready
    exact pollEvents_closing c _

theorem C8_advisory_eventfd_witness :
    writePollCbModel true false 2 (some 5) [(1, iocbPlainEx, 7)] =
      (List.take 2 [(1, iocbPlainEx, 7)]).map
        (fun x => PollOut.finished x.1 x.2.2) :=
  C8_advisory_eventfd.2.1 true 2 5 [(1, iocbPlainEx, 7)] (by decide)

end RaftImpl
